import Mathlib

/-!
Tegra bootloader headers `tegrabl_carveout_id.h` and `pinctrl-tegra.h`.

Both files are C headers made of preprocessor directives and one struct
declaration. They are embedded line by line as lists of `Line` values and
given meaning by a small model of the C preprocessor: conditional inclusion
(the directives ifndef, if-not-defined and endif), object-like define,
rescanning of a replacement list that names another macro, and macro
replacement in the text that is passed on to the compiler.
-/

namespace Tegra

/-! ## Preprocessor model -/

/-- An integer constant token: its value and whether it carries the `U` suffix. -/
structure IntLit where
  value : Nat
  suffixU : Bool
  deriving DecidableEq

/-- Replacement list of an object-like macro, as far as these headers use them:
nothing at all (an include guard), one integer constant, or one identifier. -/
inductive Body where
  | empty
  | lit (l : IntLit)
  | ident (name : String)
  deriving DecidableEq

/-- A preprocessing token of program text: an identifier (keywords included,
which the preprocessor does not tell apart), a number, or a punctuator. -/
inductive Token where
  | ident (name : String)
  | number (l : IntLit)
  | punct (text : String)
  deriving DecidableEq

/-- One logical line of a header. `ifndef` stands for both `#ifndef NAME` and
`#if !defined(NAME)`; `text` is a run of source lines that are not directives,
as tokens. -/
inductive Line where
  | ifndef (name : String)
  | endif
  | define (name : String) (body : Body)
  | text (tokens : List Token)

/-- Macro table; the most recent definition comes first. -/
abbrev MacroTable := List (String × Body)

/-- Lookup of the current definition of a macro name. -/
def lookupMacro : MacroTable → String → Option Body
  | [], _ => none
  | (n, b) :: rest, name => if n = name then some b else lookupMacro rest name

/-- The `defined(NAME)` operator. -/
def isDefined (macros : MacroTable) (name : String) : Bool :=
  (lookupMacro macros name).isSome

/-- Macro replacement of one identifier of program text. An identifier that is
not a macro stays; an empty replacement list removes it; a replacement list
that is an identifier is rescanned, and during that rescan the name being
replaced is not a macro. The table shrinks at every rescan, so fuel above its
length is never used up. -/
def replaceIdent : Nat → MacroTable → String → Option (List Token)
  | 0, _, _ => none
  | fuel + 1, macros, name =>
      match lookupMacro macros name with
      | none => some [Token.ident name]
      | some .empty => some []
      | some (.lit l) => some [Token.number l]
      | some (.ident other) =>
          replaceIdent fuel (macros.filter fun e => e.1 != name) other

/-- Macro replacement of program text: identifiers are replaced, numbers and
punctuators pass through. -/
def replaceTokens (macros : MacroTable) : List Token → Option (List Token)
  | [] => some []
  | Token.ident name :: rest =>
      match replaceIdent (macros.length + 1) macros name, replaceTokens macros rest with
      | some out, some more => some (out ++ more)
      | _, _ => none
  | Token.number l :: rest => (replaceTokens macros rest).map fun more => Token.number l :: more
  | Token.punct t :: rest => (replaceTokens macros rest).map fun more => Token.punct t :: more

/-- Preprocessor state: the macro table, the stack of open conditionals (each
entry tells whether text inside it is kept), and the text passed on to the
compiler so far, in order. -/
structure PPState where
  macros : MacroTable
  conds : List Bool
  text : List Token

/-- Text is kept when there is no open conditional or the innermost one is kept. -/
def PPState.active (s : PPState) : Bool :=
  match s.conds with
  | [] => true
  | c :: _ => c

/-- Processing of one line. An `#endif` without an open conditional is an error.
A `#define` of a name that is already defined replaces the earlier definition.
Text in a kept region is passed on after macro replacement. -/
def ppStep (s : PPState) : Line → Option PPState
  | .ifndef name =>
      some { s with conds := (s.active && !(isDefined s.macros name)) :: s.conds }
  | .endif =>
      match s.conds with
      | [] => none
      | _ :: rest => some { s with conds := rest }
  | .define name body =>
      if s.active then some { s with macros := (name, body) :: s.macros } else some s
  | .text tokens =>
      if s.active then
        match replaceTokens s.macros tokens with
        | none => none
        | some out => some { s with text := s.text ++ out }
      else some s

/-- Processing of a list of lines from a given state. -/
def ppLines : PPState → List Line → Option PPState
  | s, [] => some s
  | s, l :: ls =>
      match ppStep s l with
      | none => none
      | some s1 => ppLines s1 ls

/-- Processing of a whole header, starting from the macros already defined when
the header is reached. A conditional left open at the end of the file is an
error. -/
def preprocess (predefined : MacroTable) (header : List Line) : Option PPState :=
  match ppLines ⟨predefined, [], []⟩ header with
  | none => none
  | some s => if s.conds.isEmpty then some s else none

/-- Full expansion of a macro name to an integer constant. A replacement list
that is an identifier is rescanned; an identifier that is not a macro, or an
empty replacement list, is not an integer constant. -/
def expand (macros : MacroTable) : Nat → String → Option IntLit
  | 0, _ => none
  | fuel + 1, name =>
      match lookupMacro macros name with
      | none => none
      | some .empty => none
      | some (.lit l) => some l
      | some (.ident other) => expand macros fuel other

/-- Names defined in a macro table, oldest first (one entry per `#define`
that was processed). -/
def macroNames (macros : MacroTable) : List String :=
  (macros.map Prod.fst).reverse

/-- Identifiers that occur in program text. -/
def tokenIdents : List Token → List String
  | [] => []
  | Token.ident name :: rest => name :: tokenIdents rest
  | _ :: rest => tokenIdents rest

/-- Whether program text opens a definition `struct tag {`. -/
def definesStruct (tag : String) : List Token → Bool
  | [] => false
  | tok :: rest =>
      (match tok, rest with
        | Token.ident kw, Token.ident t :: Token.punct open_ :: _ =>
            kw == "struct" && t == tag && open_ == "\x7b"
        | _, _ => false) || definesStruct tag rest

/-- Names of a macro table that start with the given text. -/
def namesStartingWith (start : String) (macros : MacroTable) : List String :=
  (macroNames macros).filter fun n => start.data.isPrefixOf n.data

/-! ## `tegrabl_carveout_id.h` -/

/-- The definition of `struct tegrabl_carveout_info`, lines 19-29. -/
def tegrabl_carveout_info : List Token :=
  [ Token.ident "struct", Token.ident "tegrabl_carveout_info", Token.punct "\x7b"
  , Token.ident "uint64_t", Token.ident "base", Token.punct ";"
  , Token.ident "uint64_t", Token.ident "size", Token.punct ";"
  , Token.ident "union", Token.punct "\x7b"
  , Token.ident "struct", Token.punct "\x7b"
  , Token.ident "uint64_t", Token.ident "ecc_protected", Token.punct ":"
  , Token.number ⟨1, false⟩, Token.punct ";"
  , Token.ident "uint64_t", Token.ident "reserved", Token.punct ":"
  , Token.number ⟨63, false⟩, Token.punct ";"
  , Token.punct "\x7d", Token.punct ";"
  , Token.ident "uint64_t", Token.ident "flags", Token.punct ";"
  , Token.punct "\x7d", Token.punct ";"
  , Token.punct "\x7d", Token.punct ";" ]

/-- An integer constant written with the `U` suffix. -/
def litU (n : Nat) : Body := .lit ⟨n, true⟩

/-- An integer constant written without suffix. -/
def litPlain (n : Nat) : Body := .lit ⟨n, false⟩

/-- The header `tegrabl_carveout_id.h`, line by line. -/
def tegrabl_carveout_id_h : List Line :=
  [ Line.ifndef "INCLUDED_CARVEOUT_ID_H"
  , Line.define "INCLUDED_CARVEOUT_ID_H" Body.empty
  , Line.ifndef "IN_DTS_CONTEXT"
  , Line.text tegrabl_carveout_info
  , Line.endif
  , Line.define "CARVEOUT_NVDEC" (litU 1)
  , Line.define "CARVEOUT_WPR1" (litU 2)
  , Line.define "CARVEOUT_WPR2" (litU 3)
  , Line.define "CARVEOUT_TSEC" (litU 4)
  , Line.define "CARVEOUT_XUSB" (litU 5)
  , Line.define "CARVEOUT_BPMP" (litU 6)
  , Line.define "CARVEOUT_APE" (litU 7)
  , Line.define "CARVEOUT_SPE" (litU 8)
  , Line.define "CARVEOUT_SCE" (litU 9)
  , Line.define "CARVEOUT_APR" (litU 10)
  , Line.define "CARVEOUT_BPMP_DCE" (litU 11)
  , Line.define "CARVEOUT_UNUSED3" (litU 12)
  , Line.define "CARVEOUT_BPMP_RCE" (litU 13)
  , Line.define "CARVEOUT_BPMP_MCE" (litU 14)
  , Line.define "CARVEOUT_ETR" (litU 15)
  , Line.define "CARVEOUT_BPMP_SPE" (litU 16)
  , Line.define "CARVEOUT_RCE" (litU 17)
  , Line.define "CARVEOUT_BPMP_CPUTZ" (litU 18)
  , Line.define "CARVEOUT_UNUSED1" (litU 19)
  , Line.define "CARVEOUT_DCE" (litU 20)
  , Line.define "CARVEOUT_BPMP_PSC" (litU 21)
  , Line.define "CARVEOUT_PSC" (litU 22)
  , Line.define "CARVEOUT_NV_SC7" (litU 23)
  , Line.define "CARVEOUT_CAMERA_TASKLIST" (litU 24)
  , Line.define "CARVEOUT_BPMP_SCE" (litU 25)
  , Line.define "CARVEOUT_CV_GOS" (litU 26)
  , Line.define "CARVEOUT_PSC_TSEC" (litU 27)
  , Line.define "CARVEOUT_CCPLEX_INTERWORLD_SHMEM" (litU 28)
  , Line.define "CARVEOUT_FSI" (litU 29)
  , Line.define "CARVEOUT_MCE" (litU 30)
  , Line.define "CARVEOUT_CCPLEX_IST" (litU 31)
  , Line.define "CARVEOUT_TSEC_HOST1X" (litU 32)
  , Line.define "CARVEOUT_PSC_TZ" (litU 33)
  , Line.define "CARVEOUT_SCE_CPU_NS" (litU 34)
  , Line.define "CARVEOUT_OEM_SC7" (litU 35)
  , Line.define "CARVEOUT_SYNCPT_IGPU_RO" (litU 36)
  , Line.define "CARVEOUT_SYNCPT_IGPU_NA" (litU 37)
  , Line.define "CARVEOUT_VM_ENCRYPT" (litU 38)
  , Line.define "CARVEOUT_BLANKET_NSDRAM" (Body.ident "CARVEOUT_VM_ENCRYPT")
  , Line.define "CARVEOUT_CCPLEX_SMMU_PTW" (litU 39)
  , Line.define "CARVEOUT_BPMP_CPU_NS" (litU 40)
  , Line.define "CARVEOUT_FSI_CPU_NS" (litU 41)
  , Line.define "CARVEOUT_TSEC_DCE" (litU 42)
  , Line.define "CARVEOUT_TZDRAM" (litU 43)
  , Line.define "CARVEOUT_VPR" (litU 44)
  , Line.define "CARVEOUT_MTS" (litU 45)
  , Line.define "CARVEOUT_RCM_BLOB" (litU 46)
  , Line.define "CARVEOUT_UEFI" (litU 47)
  , Line.define "CARVEOUT_UEFI_MM_IPC" (litU 48)
  , Line.define "CARVEOUT_DRAM_ECC_TEST" (litU 49)
  , Line.define "CARVEOUT_PROFILING" (litU 50)
  , Line.define "CARVEOUT_OS" (litU 51)
  , Line.define "CARVEOUT_FSI_KEY_BLOB" (litU 52)
  , Line.define "CARVEOUT_TEMP_MB2RF" (litU 53)
  , Line.define "CARVEOUT_TEMP_MB2_LOAD" (litU 54)
  , Line.define "CARVEOUT_TEMP_MB2_PARAMS" (litU 55)
  , Line.define "CARVEOUT_TEMP_MB2_IO_BUFFERS" (litU 56)
  , Line.define "CARVEOUT_TEMP_MB2RF_DATA" (litU 57)
  , Line.define "CARVEOUT_TEMP_MB2" (litU 58)
  , Line.define "CARVEOUT_TEMP_MB2_SYSRAM_DATA" (litU 59)
  , Line.define "CARVEOUT_TSEC_CCPLEX" (litU 60)
  , Line.define "CARVEOUT_TEMP_MB2_APLT_LOAD" (litU 61)
  , Line.define "CARVEOUT_TEMP_MB2_APLT_PARAMS" (litU 62)
  , Line.define "CARVEOUT_TEMP_MB2_APLT_IO_BUFFERS" (litU 63)
  , Line.define "CARVEOUT_TEMP_MB2_APLT_SYSRAM_DATA" (litU 64)
  , Line.define "CARVEOUT_GR" (litU 65)
  , Line.define "CARVEOUT_TEMP_QB_DATA" (litU 66)
  , Line.define "CARVEOUT_TEMP_QB_IO_BUFFER" (litU 67)
  , Line.define "CARVEOUT_ATF_FSI" (litU 68)
  , Line.define "CARVEOUT_OPTEE_DTB" (litU 69)
  , Line.define "CARVEOUT_UNUSED2" (litU 70)
  , Line.define "CARVEOUT_UNUSED4" (litU 71)
  , Line.define "CARVEOUT_RAM_OOPS" (litU 72)
  , Line.define "CARVEOUT_OEM_COUNT" (litU 73)
  , Line.endif ]

/-! ## `pinctrl-tegra.h` -/

/-- The header `pinctrl-tegra.h`, line by line. -/
def pinctrl_tegra_h : List Line :=
  [ Line.ifndef "_DT_BINDINGS_PINCTRL_TEGRA_H"
  , Line.define "_DT_BINDINGS_PINCTRL_TEGRA_H" Body.empty
  , Line.define "TEGRA_PIN_DISABLE" (litPlain 0)
  , Line.define "TEGRA_PIN_ENABLE" (litPlain 1)
  , Line.define "TEGRA_PIN_PULL_NONE" (litPlain 0)
  , Line.define "TEGRA_PIN_PULL_DOWN" (litPlain 1)
  , Line.define "TEGRA_PIN_PULL_UP" (litPlain 2)
  , Line.define "TEGRA_PIN_LP_DRIVE_DIV_8" (litPlain 0)
  , Line.define "TEGRA_PIN_LP_DRIVE_DIV_4" (litPlain 1)
  , Line.define "TEGRA_PIN_LP_DRIVE_DIV_2" (litPlain 2)
  , Line.define "TEGRA_PIN_LP_DRIVE_DIV_1" (litPlain 3)
  , Line.define "TEGRA_PIN_SLEW_RATE_FASTEST" (litPlain 0)
  , Line.define "TEGRA_PIN_SLEW_RATE_FAST" (litPlain 1)
  , Line.define "TEGRA_PIN_SLEW_RATE_SLOW" (litPlain 2)
  , Line.define "TEGRA_PIN_SLEW_RATE_SLOWEST" (litPlain 3)
  , Line.endif ]

/-! ## Derived views -/

/-- Macro table left by a header processed after the given predefinitions;
empty when preprocessing fails. -/
def macrosOf (predefined : MacroTable) (header : List Line) : MacroTable :=
  match preprocess predefined header with
  | none => []
  | some s => s.macros

/-- Integer constant a macro name stands for in a macro table. -/
def macroLit (macros : MacroTable) (name : String) : Option IntLit :=
  expand macros macros.length name

/-- Numeric value a macro name stands for in a macro table. -/
def macroValue (macros : MacroTable) (name : String) : Option Nat :=
  (macroLit macros name).map IntLit.value

/-- Macro table of `tegrabl_carveout_id.h` compiled as C (nothing predefined). -/
def carveoutMacros : MacroTable := macrosOf [] tegrabl_carveout_id_h

/-- The `CARVEOUT_*` names of `tegrabl_carveout_id.h`, in source order. -/
def carveoutNames : List String := namesStartingWith "CARVEOUT_" carveoutMacros

/-- Numeric value of a `CARVEOUT_*` name. -/
def carveoutValue (name : String) : Option Nat := macroValue carveoutMacros name

/-- Macro table of `pinctrl-tegra.h`. -/
def pinctrlMacros : MacroTable := macrosOf [] pinctrl_tegra_h

/-- Numeric value of a `TEGRA_PIN_*` name. -/
def pinValue (name : String) : Option Nat := macroValue pinctrlMacros name

/-- The definition a `-DNAME` command-line option gives to `NAME`. -/
def cmdlineDefine (name : String) : String × Body := (name, Body.lit ⟨1, false⟩)

/-- The `CARVEOUT_*` names other than `CARVEOUT_OEM_COUNT`. -/
def carveoutNamesBelowCount : List String :=
  carveoutNames.filter fun n => n != "CARVEOUT_OEM_COUNT"

/-- Expected value of the name at a position of the `CARVEOUT_*` table, counted from 0 in
source order: positions 0 to 37 hold 1 to 38, and from the alias at position 38
on each position holds its own number. -/
def valueAtPosition (i : Nat) : Nat := if i < 38 then i + 1 else i

/-- Macro name of the low-power drive constant for a divisor. -/
def lpDriveName (divisor : Nat) : String :=
  "TEGRA_PIN_LP_DRIVE_DIV_" ++ toString divisor

/-- Encoded value of the low-power drive constant for a divisor. -/
def lpDrive (divisor : Nat) : Option Nat := pinValue (lpDriveName divisor)

/-! ## Facts about the preprocessor model -/

theorem isDefined_cons (n : String) (b : Body) (t : MacroTable) (name : String) :
    isDefined ((n, b) :: t) name = (decide (n = name) || isDefined t name) := by
  unfold isDefined
  by_cases h : n = name <;> simp [lookupMacro, h]

theorem lookupMacro_append_of_some (A B : MacroTable) (name : String) (b : Body)
    (h : lookupMacro A name = some b) : lookupMacro (A ++ B) name = some b := by
  induction A with
  | nil => simp [lookupMacro] at h
  | cons x A ih =>
      obtain ⟨n, c⟩ := x
      by_cases hn : n = name
      · simpa [lookupMacro, hn] using h
      · simp only [lookupMacro, hn, if_false, List.cons_append] at h ⊢
        exact ih h

/-- An expansion that succeeds in a table succeeds with the same result when
older definitions sit behind that table and more fuel is given. -/
theorem expand_append_of_some (A B : MacroTable) (l : IntLit) :
    ∀ (fuel extra : Nat) (name : String),
      expand A fuel name = some l → expand (A ++ B) (fuel + extra) name = some l := by
  intro fuel
  induction fuel with
  | zero => intro extra name h; simp [expand] at h
  | succ f ih =>
      intro extra name h
      rw [Nat.add_right_comm]
      unfold expand at h ⊢
      cases hl : lookupMacro A name with
      | none => simp [hl] at h
      | some b =>
          rw [lookupMacro_append_of_some A B name b hl]
          rw [hl] at h
          cases b with
          | empty => simp at h
          | lit l1 => simpa using h
          | ident other => exact ih extra other h

theorem macroLit_append_of_some (A B : MacroTable) (name : String) (l : IntLit)
    (h : macroLit A name = some l) : macroLit (A ++ B) name = some l := by
  unfold macroLit at h ⊢
  rw [List.length_append]
  exact expand_append_of_some A B l A.length B.length name h

theorem namesStartingWith_append (start : String) (A B : MacroTable) :
    namesStartingWith start (A ++ B) = namesStartingWith start B ++ namesStartingWith start A := by
  simp [namesStartingWith, macroNames]

theorem ppLines_cons (s : PPState) (l : Line) (ls : List Line) :
    ppLines s (l :: ls) = (ppStep s l).bind fun s1 => ppLines s1 ls := by
  cases h : ppStep s l <;> simp [ppLines, h]

theorem lookupMacro_filter_length (m : MacroTable) (name : String) (b : Body)
    (h : lookupMacro m name = some b) :
    (m.filter fun e => e.1 != name).length < m.length := by
  induction m with
  | nil => simp [lookupMacro] at h
  | cons x m ih =>
      obtain ⟨n, c⟩ := x
      by_cases hn : n = name
      · have hle := List.length_filter_le (fun e : String × Body => e.1 != name) m
        simp only [List.filter_cons, hn, bne_self_eq_false, Bool.false_eq_true, if_false,
          List.length_cons]
        omega
      · simp only [lookupMacro, hn, if_false] at h
        have := ih h
        simp only [List.filter_cons, List.length_cons]
        split
        · simp only [List.length_cons]; omega
        · omega

/-- Macro replacement of an identifier never runs out of fuel when the fuel
exceeds the length of the macro table. -/
theorem replaceIdent_isSome :
    ∀ (fuel : Nat) (m : MacroTable) (name : String),
      m.length < fuel → (replaceIdent fuel m name).isSome = true := by
  intro fuel
  induction fuel with
  | zero => intro m name h; omega
  | succ f ih =>
      intro m name h
      unfold replaceIdent
      cases hl : lookupMacro m name with
      | none => rfl
      | some b =>
          cases b with
          | empty => rfl
          | lit l => rfl
          | ident other =>
              have hlt := lookupMacro_filter_length m name _ hl
              exact ih _ other (by omega)

/-- Macro replacement of program text always yields text. -/
theorem replaceTokens_isSome (m : MacroTable) (toks : List Token) :
    (replaceTokens m toks).isSome = true := by
  induction toks with
  | nil => rfl
  | cons t rest ih =>
      obtain ⟨more, hmore⟩ := Option.isSome_iff_exists.mp ih
      cases t with
      | ident name =>
          obtain ⟨out, hout⟩ := Option.isSome_iff_exists.mp
            (replaceIdent_isSome (m.length + 1) m name (Nat.lt_succ_self _))
          simp [replaceTokens, hout, hmore]
      | number l => simp [replaceTokens, hmore]
      | punct t => simp [replaceTokens, hmore]

/-- Text none of whose identifiers is a macro passes through unchanged. -/
theorem replaceTokens_of_undefined (m : MacroTable) (toks : List Token)
    (h : ∀ n ∈ tokenIdents toks, lookupMacro m n = none) :
    replaceTokens m toks = some toks := by
  induction toks with
  | nil => rfl
  | cons t rest ih =>
      cases t with
      | ident name =>
          have hrest := ih fun n hn => h n (List.mem_cons_of_mem _ hn)
          have hname := h name (List.mem_cons_self _ _)
          simp [replaceTokens, replaceIdent, hname, hrest]
      | number l =>
          have hrest := ih fun n hn => h n hn
          simp [replaceTokens, hrest]
      | punct t =>
          have hrest := ih fun n hn => h n hn
          simp [replaceTokens, hrest]

/-- The header processed with `IN_DTS_CONTEXT` defined, from any predefinitions
that leave the include guard undefined: every `#define` of the header is
recorded and no text is passed on. -/
theorem preprocess_carveout_id_h_dts (env : MacroTable)
    (hguard : isDefined env "INCLUDED_CARVEOUT_ID_H" = false)
    (hdts : isDefined env "IN_DTS_CONTEXT" = true) :
    preprocess env tegrabl_carveout_id_h = some ⟨carveoutMacros ++ env, [], []⟩ := by
  unfold preprocess tegrabl_carveout_id_h
  rw [ppLines_cons, ppStep]
  simp only [PPState.active, hguard, Bool.not_false, Bool.and_self, Option.some_bind]
  rw [ppLines_cons, ppStep]
  simp only [PPState.active, if_true, Option.some_bind]
  rw [ppLines_cons, ppStep]
  simp only [PPState.active, isDefined_cons, hdts, Option.some_bind]
  rfl

/-- The header processed with `IN_DTS_CONTEXT` undefined, from any
predefinitions that leave the include guard and every identifier of the struct
definition undefined: every `#define` of the header is recorded and the struct
definition is passed on as written. -/
theorem preprocess_carveout_id_h_c (env : MacroTable)
    (hguard : isDefined env "INCLUDED_CARVEOUT_ID_H" = false)
    (hdts : isDefined env "IN_DTS_CONTEXT" = false)
    (htext : ∀ n ∈ tokenIdents tegrabl_carveout_info, isDefined env n = false) :
    preprocess env tegrabl_carveout_id_h =
      some ⟨carveoutMacros ++ env, [], tegrabl_carveout_info⟩ := by
  have hrep : replaceTokens (("INCLUDED_CARVEOUT_ID_H", Body.empty) :: env)
      tegrabl_carveout_info = some tegrabl_carveout_info := by
    apply replaceTokens_of_undefined
    intro n hn
    have hne : "INCLUDED_CARVEOUT_ID_H" ≠ n := by
      intro heq
      subst heq
      revert hn
      decide
    have hnone := htext n hn
    unfold isDefined at hnone
    simp only [lookupMacro, hne, if_false]
    cases hl : lookupMacro env n with
    | none => rfl
    | some b => simp [hl] at hnone
  unfold preprocess tegrabl_carveout_id_h
  rw [ppLines_cons, ppStep]
  simp only [PPState.active, hguard, Bool.not_false, Bool.and_self, Option.some_bind]
  rw [ppLines_cons, ppStep]
  simp only [PPState.active, if_true, Option.some_bind]
  rw [ppLines_cons, ppStep]
  simp only [PPState.active, isDefined_cons, hdts, Option.some_bind]
  rw [ppLines_cons, ppStep]
  simp only [PPState.active, hrep, Option.some_bind]
  rfl

/-! ## Carveout identifiers -/

set_option maxRecDepth 100000 in
set_option maxHeartbeats 4000000 in
/-- Expansion of every `CARVEOUT_*` name, in source order. -/
theorem carveout_lits :
    carveoutNames.map (macroLit carveoutMacros) =
      (List.range 74).map fun i => some ⟨valueAtPosition i, true⟩ := by
  decide!

theorem carveout_values :
    carveoutNames.map carveoutValue = (List.range 74).map fun i => some (valueAtPosition i) := by
  have h := congrArg (List.map (Option.map IntLit.value)) carveout_lits
  simpa [carveoutValue, macroValue, Function.comp_def] using h

theorem carveout_lit_of_mem (n : String) (hn : n ∈ carveoutNames) :
    ∃ i < 74, macroLit carveoutMacros n = some ⟨valueAtPosition i, true⟩ := by
  have h : macroLit carveoutMacros n ∈ carveoutNames.map (macroLit carveoutMacros) :=
    List.mem_map_of_mem _ hn
  rw [carveout_lits] at h
  obtain ⟨i, hi, he⟩ := List.mem_map.mp h
  exact ⟨i, List.mem_range.mp hi, he.symm⟩

theorem valueAtPosition_bounds (i : Nat) (hi : i < 74) :
    1 ≤ valueAtPosition i ∧ valueAtPosition i ≤ 73 := by
  unfold valueAtPosition
  split <;> omega

/-- Each name of the table paired with its value is an entry of the table
zipped with the values in source order. -/
theorem carveout_entry_mem (n : String) (hn : n ∈ carveoutNames) :
    (n, carveoutValue n) ∈
      carveoutNames.zip ((List.range 74).map fun i => some (valueAtPosition i)) := by
  rw [← carveout_values, ← List.map_prod_left_eq_zip]
  exact List.mem_map_of_mem _ hn

theorem map_filter_eq_zip {α β : Type} (f : α → β) (p : α → Bool) (l : List α) :
    (l.filter p).map f = ((l.zip (l.map f)).filter fun x => p x.1).map Prod.snd := by
  induction l with
  | nil => rfl
  | cons x l ih =>
      by_cases hx : p x = true
      · simp [List.filter_cons, hx, ih]
      · simp [List.filter_cons, hx, ih]

set_option maxRecDepth 100000 in
set_option maxHeartbeats 4000000 in
theorem carveout_alias_mem :
    carveoutNames.length = 74 ∧
    "CARVEOUT_BLANKET_NSDRAM" ∈ carveoutNames ∧ "CARVEOUT_VM_ENCRYPT" ∈ carveoutNames ∧
    carveoutValue "CARVEOUT_BLANKET_NSDRAM" = some 38 ∧
    carveoutValue "CARVEOUT_VM_ENCRYPT" = some 38 := by
  decide!

set_option maxRecDepth 100000 in
set_option maxHeartbeats 4000000 in
theorem carveout_ram_oops_mem : "CARVEOUT_RAM_OOPS" ∈ carveoutNames := by
  decide!

set_option maxRecDepth 100000 in
set_option maxHeartbeats 4000000 in
/-- Entries of the table at different positions differ in value or in name. -/
theorem carveout_entries_pairwise :
    (carveoutNames.zip ((List.range 74).map fun i => some (valueAtPosition i))).Pairwise
      fun p q => p.2 ≠ q.2 ∨ p.1 ≠ q.1 := by
  decide!

theorem carveoutNames_nodup : carveoutNames.Nodup := by
  have h := carveout_entries_pairwise
  rw [← carveout_values, ← List.map_prod_left_eq_zip, List.pairwise_map] at h
  refine List.Pairwise.imp ?_ h
  intro a b hab heq
  rcases hab with hv | hn
  · exact hv (congrArg carveoutValue heq)
  · exact hn heq

set_option maxRecDepth 100000 in
set_option maxHeartbeats 4000000 in
/-- C1: over the 74 `CARVEOUT_*` names of `tegrabl_carveout_id.h`, two distinct
names have the same numeric value if and only if they are the pair
`CARVEOUT_BLANKET_NSDRAM` and `CARVEOUT_VM_ENCRYPT`, which both are 38. -/
theorem carveout_same_value_iff_alias (a b : String)
    (ha : a ∈ carveoutNames) (hb : b ∈ carveoutNames) (hab : a ≠ b) :
    carveoutNames.length = 74 ∧ carveoutNames.Nodup ∧
    "CARVEOUT_BLANKET_NSDRAM" ∈ carveoutNames ∧ "CARVEOUT_VM_ENCRYPT" ∈ carveoutNames ∧
    carveoutValue "CARVEOUT_BLANKET_NSDRAM" = some 38 ∧
    carveoutValue "CARVEOUT_VM_ENCRYPT" = some 38 ∧
    (carveoutValue a).isSome = true ∧ (carveoutValue b).isSome = true ∧
    (carveoutValue a = carveoutValue b ↔
      (a = "CARVEOUT_BLANKET_NSDRAM" ∧ b = "CARVEOUT_VM_ENCRYPT") ∨
      (a = "CARVEOUT_VM_ENCRYPT" ∧ b = "CARVEOUT_BLANKET_NSDRAM")) := by
  have pairs : ∀ p ∈ carveoutNames.zip ((List.range 74).map fun i => some (valueAtPosition i)),
      ∀ q ∈ carveoutNames.zip ((List.range 74).map fun i => some (valueAtPosition i)),
      p.2 = q.2 → (p.1 = q.1 ∨
        (p.1 = "CARVEOUT_BLANKET_NSDRAM" ∧ q.1 = "CARVEOUT_VM_ENCRYPT") ∨
        (p.1 = "CARVEOUT_VM_ENCRYPT" ∧ q.1 = "CARVEOUT_BLANKET_NSDRAM")) := by decide!
  have defined : ∀ n ∈ carveoutNames, (carveoutValue n).isSome = true := by
    intro n hn
    obtain ⟨i, _, hl⟩ := carveout_lit_of_mem n hn
    simp [carveoutValue, macroValue, hl]
  obtain ⟨h1, h3, h4, h5, h6⟩ := carveout_alias_mem
  refine ⟨h1, carveoutNames_nodup, h3, h4, h5, h6, defined a ha, defined b hb, ?_, ?_⟩
  · intro hv
    rcases pairs _ (carveout_entry_mem a ha) _ (carveout_entry_mem b hb) hv with h | h
    · exact absurd h hab
    · exact h
  · rintro (⟨rfl, rfl⟩ | ⟨rfl, rfl⟩)
    · rw [h5, h6]
    · rw [h5, h6]

/-- Instance of C1 at the alias pair: the two names are in the table, are
distinct, and share a value. -/
theorem carveout_same_value_iff_alias_witness :
    "CARVEOUT_BLANKET_NSDRAM" ∈ carveoutNames ∧ "CARVEOUT_VM_ENCRYPT" ∈ carveoutNames ∧
    "CARVEOUT_BLANKET_NSDRAM" ≠ "CARVEOUT_VM_ENCRYPT" ∧
    (carveoutValue "CARVEOUT_BLANKET_NSDRAM" = carveoutValue "CARVEOUT_VM_ENCRYPT" ↔
      ("CARVEOUT_BLANKET_NSDRAM" = "CARVEOUT_BLANKET_NSDRAM" ∧
          "CARVEOUT_VM_ENCRYPT" = "CARVEOUT_VM_ENCRYPT") ∨
        ("CARVEOUT_BLANKET_NSDRAM" = "CARVEOUT_VM_ENCRYPT" ∧
          "CARVEOUT_VM_ENCRYPT" = "CARVEOUT_BLANKET_NSDRAM")) :=
  ⟨carveout_alias_mem.2.1, carveout_alias_mem.2.2.1, by decide,
    (carveout_same_value_iff_alias "CARVEOUT_BLANKET_NSDRAM" "CARVEOUT_VM_ENCRYPT"
      carveout_alias_mem.2.1 carveout_alias_mem.2.2.1 (by decide)).2.2.2.2.2.2.2.2⟩

/-- C2: every `CARVEOUT_*` name of `tegrabl_carveout_id.h`, the alias
`CARVEOUT_BLANKET_NSDRAM` included, expands to an integer constant with the
`U` suffix whose value v fits in 32 bits and satisfies 1 ≤ v ≤ 73; in
particular it is not 0. -/
theorem carveout_value_range (n : String) (hn : n ∈ carveoutNames) :
    "CARVEOUT_BLANKET_NSDRAM" ∈ carveoutNames ∧
    ∃ l : IntLit, macroLit carveoutMacros n = some l ∧ carveoutValue n = some l.value ∧
      l.suffixU = true ∧ l.value < 2 ^ 32 ∧ 1 ≤ l.value ∧ l.value ≤ 73 ∧ l.value ≠ 0 := by
  refine ⟨carveout_alias_mem.2.1, ?_⟩
  obtain ⟨i, hi, hl⟩ := carveout_lit_of_mem n hn
  obtain ⟨h1, h73⟩ := valueAtPosition_bounds i hi
  refine ⟨⟨valueAtPosition i, true⟩, hl, by simp [carveoutValue, macroValue, hl], rfl, ?_,
    h1, h73, ?_⟩
  · show valueAtPosition i < 2 ^ 32
    omega
  · show valueAtPosition i ≠ 0
    omega

/-- Instance of C2 at the alias name. -/
theorem carveout_value_range_witness :
    "CARVEOUT_BLANKET_NSDRAM" ∈ carveoutNames ∧
    ∃ l : IntLit, macroLit carveoutMacros "CARVEOUT_BLANKET_NSDRAM" = some l ∧
      carveoutValue "CARVEOUT_BLANKET_NSDRAM" = some l.value ∧
      l.suffixU = true ∧ l.value < 2 ^ 32 ∧ 1 ≤ l.value ∧ l.value ≤ 73 ∧ l.value ≠ 0 :=
  carveout_value_range "CARVEOUT_BLANKET_NSDRAM" carveout_alias_mem.2.1

/-- C8: the carveout values have no gaps: every v with 1 ≤ v ≤ 73 is the value
of at least one `CARVEOUT_*` name of `tegrabl_carveout_id.h`; as every name has
a value between 1 and 73, the 74 names map onto exactly the values 1 to 73,
which are 73 distinct values. -/
theorem carveout_values_no_gaps (v : Nat) (h1 : 1 ≤ v) (h73 : v ≤ 73) :
    (∃ n ∈ carveoutNames, carveoutValue n = some v) ∧
    carveoutNames.length = 74 ∧
    (∀ n ∈ carveoutNames, ∃ w, carveoutValue n = some w ∧ 1 ≤ w ∧ w ≤ 73) ∧
    (carveoutNames.map carveoutValue).dedup.length = 73 := by
  have hmem : some v ∈ carveoutNames.map carveoutValue := by
    rw [carveout_values]
    refine List.mem_map.mpr ⟨if v ≤ 38 then v - 1 else v, ?_, ?_⟩
    · rw [List.mem_range]; split <;> omega
    · unfold valueAtPosition
      congr 1
      split <;> split <;> omega
  obtain ⟨n, hn, hv⟩ := List.mem_map.mp hmem
  refine ⟨⟨n, hn, hv⟩, carveout_alias_mem.1, ?_, ?_⟩
  · intro m hm
    obtain ⟨i, hi, hl⟩ := carveout_lit_of_mem m hm
    exact ⟨valueAtPosition i, by simp [carveoutValue, macroValue, hl],
      valueAtPosition_bounds i hi⟩
  · rw [carveout_values]
    decide

/-- Instance of C8 at v = 38, the value that two names share. -/
theorem carveout_values_no_gaps_witness :
    1 ≤ 38 ∧ 38 ≤ 73 ∧
    (∃ n ∈ carveoutNames, carveoutValue n = some 38) ∧
    carveoutNames.length = 74 ∧
    (∀ n ∈ carveoutNames, ∃ w, carveoutValue n = some w ∧ 1 ≤ w ∧ w ≤ 73) ∧
    (carveoutNames.map carveoutValue).dedup.length = 73 :=
  ⟨by decide, by decide, carveout_values_no_gaps 38 (by decide) (by decide)⟩

set_option maxRecDepth 100000 in
set_option maxHeartbeats 4000000 in
/-- C9: `CARVEOUT_OEM_COUNT` is 73, every other `CARVEOUT_*` name has a value
strictly below it, and it equals the number of distinct values of the other
names plus one. -/
theorem carveout_oem_count_bounds (n : String) (hn : n ∈ carveoutNames)
    (hne : n ≠ "CARVEOUT_OEM_COUNT") :
    carveoutValue "CARVEOUT_OEM_COUNT" = some 73 ∧
    (∃ v, carveoutValue n = some v ∧ v < 73) ∧
    (carveoutNamesBelowCount.map carveoutValue).dedup.length + 1 = 73 ∧
    carveoutNamesBelowCount.length = 73 := by
  have last : ∀ p ∈ carveoutNames.zip ((List.range 74).map fun i => some (valueAtPosition i)),
      p.2 = some 73 → p.1 = "CARVEOUT_OEM_COUNT" := by decide!
  have count : carveoutValue "CARVEOUT_OEM_COUNT" = some 73 ∧
      ((((carveoutNames.zip ((List.range 74).map fun i => some (valueAtPosition i))).filter
        fun x => x.1 != "CARVEOUT_OEM_COUNT").map Prod.snd).dedup.length + 1 = 73) ∧
      carveoutNamesBelowCount.length = 73 := by decide!
  refine ⟨count.1, ?_, ?_, count.2.2⟩
  · obtain ⟨i, hi, hl⟩ := carveout_lit_of_mem n hn
    have hv : carveoutValue n = some (valueAtPosition i) := by
      simp [carveoutValue, macroValue, hl]
    refine ⟨valueAtPosition i, hv, ?_⟩
    have hle := (valueAtPosition_bounds i hi).2
    rcases Nat.lt_or_ge (valueAtPosition i) 73 with h | h
    · exact h
    · have h73 : valueAtPosition i = 73 := by omega
      have hmem := carveout_entry_mem n hn
      rw [hv, h73] at hmem
      exact absurd (last _ hmem rfl) hne
  · unfold carveoutNamesBelowCount
    rw [map_filter_eq_zip, carveout_values]
    exact count.2.1

/-- Instance of C9 at `CARVEOUT_RAM_OOPS`, the name with the largest value below
the count. -/
theorem carveout_oem_count_bounds_witness :
    "CARVEOUT_RAM_OOPS" ∈ carveoutNames ∧ "CARVEOUT_RAM_OOPS" ≠ "CARVEOUT_OEM_COUNT" ∧
    carveoutValue "CARVEOUT_OEM_COUNT" = some 73 ∧
    (∃ v, carveoutValue "CARVEOUT_RAM_OOPS" = some v ∧ v < 73) ∧
    (carveoutNamesBelowCount.map carveoutValue).dedup.length + 1 = 73 ∧
    carveoutNamesBelowCount.length = 73 :=
  ⟨carveout_ram_oops_mem, by decide,
    carveout_oem_count_bounds "CARVEOUT_RAM_OOPS" carveout_ram_oops_mem (by decide)⟩

/-! ## Pin-control constants -/

/-- C3: the `TEGRA_PIN_*` names of `pinctrl-tegra.h` are exactly the thirteen
of the table, with the table's values: DISABLE 0, ENABLE 1; PULL_NONE 0,
PULL_DOWN 1, PULL_UP 2; LP_DRIVE_DIV_8 0, _DIV_4 1, _DIV_2 2, _DIV_1 3;
SLEW_RATE_FASTEST 0, _FAST 1, _SLOW 2, _SLOWEST 3. -/
theorem pinctrl_values :
    (namesStartingWith "TEGRA_PIN_" pinctrlMacros).map (fun n => (n, pinValue n)) =
      [ ("TEGRA_PIN_DISABLE", some 0), ("TEGRA_PIN_ENABLE", some 1),
        ("TEGRA_PIN_PULL_NONE", some 0), ("TEGRA_PIN_PULL_DOWN", some 1),
        ("TEGRA_PIN_PULL_UP", some 2),
        ("TEGRA_PIN_LP_DRIVE_DIV_8", some 0), ("TEGRA_PIN_LP_DRIVE_DIV_4", some 1),
        ("TEGRA_PIN_LP_DRIVE_DIV_2", some 2), ("TEGRA_PIN_LP_DRIVE_DIV_1", some 3),
        ("TEGRA_PIN_SLEW_RATE_FASTEST", some 0), ("TEGRA_PIN_SLEW_RATE_FAST", some 1),
        ("TEGRA_PIN_SLEW_RATE_SLOW", some 2), ("TEGRA_PIN_SLEW_RATE_SLOWEST", some 3) ] := by
  decide!

/-- C10: the low-power drive constants encode the divisor as a power of two:
for every divisor n of 1, 2, 4, 8 the constant `TEGRA_PIN_LP_DRIVE_DIV_n` has
a value e with n * 2 ^ e = 8 and e < 4 (two bits); a larger divisor has a
smaller encoding, and different divisors have different encodings. -/
theorem lp_drive_power_of_two (n : Nat) (hn : n ∈ [1, 2, 4, 8]) :
    (∃ e, lpDrive n = some e ∧ n * 2 ^ e = 8 ∧ e < 2 ^ 2) ∧
    (∀ m ∈ [1, 2, 4, 8], ∀ em en, lpDrive m = some em → lpDrive n = some en →
      (m < n → en < em) ∧ (m ≠ n → em ≠ en)) := by
  have all : ∀ k ∈ [1, 2, 4, 8],
      ((lpDrive k).any fun e => decide (k * 2 ^ e = 8 ∧ e < 2 ^ 2)) = true ∧
      ∀ m ∈ [1, 2, 4, 8],
        ((lpDrive m).all fun em => (lpDrive k).all fun ek =>
          decide ((m < k → ek < em) ∧ (m ≠ k → em ≠ ek))) = true := by decide!
  obtain ⟨h1, h2⟩ := all n hn
  constructor
  · cases he : lpDrive n with
    | none => simp [he] at h1
    | some e => exact ⟨e, rfl, by simpa [he] using h1⟩
  · intro m hm em en hem hen
    have h := h2 m hm
    simp only [hem, hen, Option.all_some, decide_eq_true_eq] at h
    exact h

/-- Instance of C10 at divisor 8, the largest one, whose encoding is the smallest. -/
theorem lp_drive_power_of_two_witness :
    8 ∈ [1, 2, 4, 8] ∧
    (∃ e, lpDrive 8 = some e ∧ 8 * 2 ^ e = 8 ∧ e < 2 ^ 2) ∧
    (∀ m ∈ [1, 2, 4, 8], ∀ em en, lpDrive m = some em → lpDrive 8 = some en →
      (m < 8 → en < em) ∧ (m ≠ 8 → em ≠ en)) :=
  ⟨by decide, lp_drive_power_of_two 8 (by decide)⟩

/-! ## The `IN_DTS_CONTEXT` guard -/

/-- C7: processing `tegrabl_carveout_id.h` with `IN_DTS_CONTEXT` defined (with
any replacement list) passes on no text at all, so no definition of
`struct tegrabl_carveout_info`, while processing it with `IN_DTS_CONTEXT`
undefined passes on the definition of `struct tegrabl_carveout_info` as
written; in both modes the header records the same definitions, the
`CARVEOUT_*` macro names are the same, and each `CARVEOUT_*` name of the header
has the same value. The predefinitions `env` shared by the two modes are
arbitrary, as long as they leave undefined the include guard, `IN_DTS_CONTEXT`
and every identifier of the struct definition (macro replacement would
otherwise rewrite the struct). -/
theorem dts_context_guard (env : MacroTable) (b : Body)
    (hguard : isDefined env "INCLUDED_CARVEOUT_ID_H" = false)
    (hdts : isDefined env "IN_DTS_CONTEXT" = false)
    (htext : ∀ n ∈ tokenIdents tegrabl_carveout_info, isDefined env n = false) :
    ∃ sDts sC : PPState,
      preprocess (("IN_DTS_CONTEXT", b) :: env) tegrabl_carveout_id_h = some sDts ∧
      preprocess env tegrabl_carveout_id_h = some sC ∧
      sDts.text = [] ∧ sC.text = tegrabl_carveout_info ∧
      definesStruct "tegrabl_carveout_info" sDts.text = false ∧
      definesStruct "tegrabl_carveout_info" sC.text = true ∧
      sDts.macros = carveoutMacros ++ ("IN_DTS_CONTEXT", b) :: env ∧
      sC.macros = carveoutMacros ++ env ∧
      namesStartingWith "CARVEOUT_" sDts.macros = namesStartingWith "CARVEOUT_" sC.macros ∧
      ∀ n ∈ carveoutNames,
        n ∈ namesStartingWith "CARVEOUT_" sC.macros ∧
        (macroValue sC.macros n).isSome = true ∧
        macroValue sDts.macros n = macroValue sC.macros n ∧
        macroValue sC.macros n = carveoutValue n := by
  have hgA : isDefined (("IN_DTS_CONTEXT", b) :: env) "INCLUDED_CARVEOUT_ID_H" = false := by
    rw [isDefined_cons, hguard]; decide
  have hdA : isDefined (("IN_DTS_CONTEXT", b) :: env) "IN_DTS_CONTEXT" = true := by
    rw [isDefined_cons]; simp
  have hA := preprocess_carveout_id_h_dts (("IN_DTS_CONTEXT", b) :: env) hgA hdA
  have hB := preprocess_carveout_id_h_c env hguard hdts htext
  have defined : ∀ n ∈ carveoutNames, (macroLit carveoutMacros n).isSome = true := by
    intro n hn
    obtain ⟨i, _, hl⟩ := carveout_lit_of_mem n hn
    simp [hl]
  have hnone : definesStruct "tegrabl_carveout_info" [] = false := by decide
  have hstruct : definesStruct "tegrabl_carveout_info" tegrabl_carveout_info = true := by
    decide
  refine ⟨_, _, hA, hB, rfl, rfl, hnone, hstruct, rfl, rfl, ?_, ?_⟩
  · have hp : List.isPrefixOf "CARVEOUT_".data "IN_DTS_CONTEXT".data = false := by decide
    simp only [namesStartingWith, macroNames, List.map_append, List.map_cons,
      List.reverse_append, List.reverse_cons, List.filter_append, List.filter_cons, hp,
      List.filter_nil, List.append_nil, Bool.false_eq_true, if_false]
  · intro n hn
    obtain ⟨l, hl⟩ := Option.isSome_iff_exists.mp (defined n hn)
    have h1 := macroLit_append_of_some carveoutMacros (("IN_DTS_CONTEXT", b) :: env) n l hl
    have h2 := macroLit_append_of_some carveoutMacros env n l hl
    refine ⟨?_, ?_, ?_, ?_⟩
    · rw [namesStartingWith_append]
      exact List.mem_append_right _ hn
    · simp [macroValue, h2]
    · simp [macroValue, h1, h2]
    · simp [macroValue, carveoutValue, h2, hl]

/-- Instance of C7 for the header processed on its own: `-DIN_DTS_CONTEXT` on
the command line against nothing predefined. -/
theorem dts_context_guard_witness :
    isDefined [] "INCLUDED_CARVEOUT_ID_H" = false ∧ isDefined [] "IN_DTS_CONTEXT" = false ∧
    (∀ n ∈ tokenIdents tegrabl_carveout_info, isDefined [] n = false) ∧
    ∃ sDts sC : PPState,
      preprocess [cmdlineDefine "IN_DTS_CONTEXT"] tegrabl_carveout_id_h = some sDts ∧
      preprocess [] tegrabl_carveout_id_h = some sC ∧
      sDts.text = [] ∧ sC.text = tegrabl_carveout_info ∧
      definesStruct "tegrabl_carveout_info" sDts.text = false ∧
      definesStruct "tegrabl_carveout_info" sC.text = true ∧
      sDts.macros = carveoutMacros ++ [cmdlineDefine "IN_DTS_CONTEXT"] ∧
      sC.macros = carveoutMacros ++ [] ∧
      namesStartingWith "CARVEOUT_" sDts.macros = namesStartingWith "CARVEOUT_" sC.macros ∧
      ∀ n ∈ carveoutNames,
        n ∈ namesStartingWith "CARVEOUT_" sC.macros ∧
        (macroValue sC.macros n).isSome = true ∧
        macroValue sDts.macros n = macroValue sC.macros n ∧
        macroValue sC.macros n = carveoutValue n :=
  ⟨by decide, by decide, by decide,
    dts_context_guard [] (Body.lit ⟨1, false⟩) (by decide) (by decide) (by decide)⟩

end Tegra
